import Mathlib

set_option maxRecDepth 40000

/-!
Verification of the shift cost calculation engine of the award-interpreter
repository (backend/app/services/calculator.py together with the constants of
backend/app/services/award_rules.py).

The Python source is shallowly embedded: floats become exact rationals,
datetimes become absolute second counts since the Unix epoch, dictionaries
become insertion-ordered association lists, and the raising behaviour of
calculate_shift (ValueError from int() or from the datetime constructor)
becomes an Option result.
-/

/-! ## Rounding helpers (calculator.py lines 22-27, and Python round) -/

/-- Embeds calculator._round_half_up: multiply by 10^decimals, add 0.5,
floor, divide back.  The decimals <= 0 branch of the source collapses to
plain floor. -/
def round_half_up (value : ℚ) (decimals : ℕ) : ℚ :=
  if decimals ≤ 0 then ((value + 1/2).floor : ℚ)
  else
    let exp : ℚ := ((10 ^ decimals : ℕ) : ℚ)
    ((value * exp + 1/2).floor : ℚ) / exp

/-- Round a rational to the nearest integer, ties to even: the behaviour of
Python round() on the exact value. -/
def roundHalfEvenInt (q : ℚ) : ℤ :=
  let f := q.floor
  let r := q - (f : ℚ)
  if r < 1/2 then f
  else if 1/2 < r then f + 1
  else if f % 2 = 0 then f else f + 1

/-- Embeds Python round(x, 2) as used for the displayed hours fields. -/
def pyRound2 (q : ℚ) : ℚ := ((roundHalfEvenInt (q * 100) : ℤ) : ℚ) / 100

/-- Decimal digit character for n < 10. -/
def digitChar (n : ℕ) : Char := Char.ofNat (48 + n)

/-- Decimal digits of a natural number, most significant first (fuel-driven). -/
def natDigitsAux : ℕ → ℕ → List Char
  | 0, _ => []
  | fuel + 1, n =>
    if n < 10 then [digitChar n] else natDigitsAux fuel (n / 10) ++ [digitChar (n % 10)]

/-- Decimal string of a natural number. -/
def natToStr (n : ℕ) : String := String.mk (natDigitsAux (n + 1) n)

/-- Embeds the Python format specifier .2f for a nonnegative value: round the
value half-to-even at two decimals and print with exactly two decimals. -/
def formatFixed2 (q : ℚ) : String :=
  let n := (roundHalfEvenInt (q * 100)).toNat
  natToStr (n / 100) ++ "." ++ (if n % 100 < 10 then "0" ++ natToStr (n % 100) else natToStr (n % 100))

/-- The minimum-engagement warning string produced by both engines
(calculator.py lines 181-183 and 280-282). -/
def minEngagementWarning (raw : ℚ) : String :=
  "Minimum casual engagement of 3 hours applied (actual hours: " ++ formatFixed2 raw ++ ")"

/-! ## Calendar arithmetic (embedding datetime.date / datetime.datetime) -/

/-- Days since 1970-01-01 of a proleptic Gregorian calendar date, the day
count underlying Python datetime.date. -/
def daysFromCivil (y m d : ℤ) : ℤ :=
  let y' := y - (if m ≤ 2 then 1 else 0)
  let era := (if 0 ≤ y' then y' else y' - 399) / 400
  let yoe := y' - era * 400
  let doy := (153 * (m + (if 2 < m then -3 else 9)) + 2) / 5 + d - 1
  let doe := yoe * 365 + yoe / 4 - yoe / 100 + doy
  era * 146097 + doe - 719468

/-- Weekday in the Python convention (Monday = 0 .. Sunday = 6) of an epoch
day number; 1970-01-01 was a Thursday (= 3). -/
def pyWeekday (days : ℤ) : ℤ := (days + 3) % 7

/-- Epoch day of a moment given in seconds since the epoch. -/
def dayOf (s : ℚ) : ℤ := (s / 86400).floor

/-- Second-of-day of a moment given in seconds since the epoch. -/
def secOfDay (s : ℚ) : ℚ := s - 86400 * ((dayOf s : ℤ) : ℚ)

/-- Hour (0-23) of a moment given in seconds since the epoch. -/
def hourOf (s : ℚ) : ℤ := (secOfDay s / 3600).floor

/-- Minute (0-59) of a moment given in seconds since the epoch. -/
def minuteOf (s : ℚ) : ℤ := ((secOfDay s - 3600 * ((hourOf s : ℤ) : ℚ)) / 60).floor

/-- Seconds since the epoch of the shift start moment
datetime(year, month, day, h, m, 0) (calculator.py line 117). -/
def startSecOf (y mo dy h m : ℤ) : ℚ :=
  ((daysFromCivil y mo dy * 86400 + h * 3600 + m * 60 : ℤ) : ℚ)

/-! ## Award constants (award_rules.py) -/

/-- award_rules.BASE_WEEKLY_RATE (Level 1 weekly rate, dollars). -/
def BASE_WEEKLY_RATE : ℚ := 10089/10

/-- award_rules.STANDARD_HOURS (hours per standard week). -/
def STANDARD_HOURS : ℚ := 38

/-- award_rules.ORDINARY_HOURS_THRESHOLD (daily hours before overtime). -/
def ORDINARY_HOURS_THRESHOLD : ℚ := 9

/-- award_rules.MINIMUM_ENGAGEMENT_HOURS (casual minimum engagement). -/
def MINIMUM_ENGAGEMENT_HOURS : ℚ := 3

/-- award_rules.EARLY_BOUNDARY (before 7am is early/late penalty). -/
def EARLY_BOUNDARY : ℚ := 7

/-- award_rules.LATE_BOUNDARY (6pm; after it the late penalties apply). -/
def LATE_BOUNDARY : ℚ := 18

/-- award_rules.OVERTIME_MULTIPLIERS first_3_hours. -/
def OVERTIME_FIRST_3 : ℚ := 3/2

/-- award_rules.OVERTIME_MULTIPLIERS beyond_3_hours. -/
def OVERTIME_BEYOND_3 : ℚ := 2

/-- The classification tags of calculator.py, a closed set: the seven keys of
award_rules.PENALTY_MULTIPLIERS plus the minimum-engagement padding key. -/
inductive PKey where
  | ordinary
  | weekday_early_late
  | friday_late
  | saturday
  | saturday_ordinary
  | sunday
  | publicholiday
  | minimum_engagement_padding
deriving DecidableEq

/-- award_rules.PENALTY_MULTIPLIERS as an association list in source order. -/
def PENALTY_MULTIPLIERS : List (PKey × ℚ) :=
  [(PKey.ordinary, 1), (PKey.weekday_early_late, 11/10), (PKey.friday_late, 23/20),
   (PKey.saturday, 5/4), (PKey.saturday_ordinary, 5/4), (PKey.sunday, 3/2),
   (PKey.publicholiday, 9/4)]

/-- Dictionary lookup in an association list of rationals. -/
def lookupQ : List (PKey × ℚ) → PKey → Option ℚ
  | [], _ => none
  | (k', v) :: rest, k => if k' = k then some v else lookupQ rest k

/-- PENALTY_MULTIPLIERS.get(key, 1.0) of the source. -/
def penaltyMultD (k : PKey) : ℚ :=
  match lookupQ PENALTY_MULTIPLIERS k with
  | some v => v
  | none => 1

/-- penalty_rates_full.get(key, ordinary_rate): the full-precision per-key
rate derived on calculator.py line 113. -/
def penaltyRateFullD (ord : ℚ) (k : PKey) : ℚ :=
  match lookupQ PENALTY_MULTIPLIERS k with
  | some v => ord * v
  | none => ord

/-- penalty_rates.get(key, ordinary_rate): the rounded-to-cents per-key rate
derived on calculator.py line 114. -/
def penaltyRateRoundedD (ord : ℚ) (k : PKey) : ℚ :=
  match lookupQ PENALTY_MULTIPLIERS k with
  | some v => round_half_up (ord * v) 2
  | none => ord

/-- The four flat-rate keys singled out on calculator.py lines 154, 162, 207
and 215. -/
def flatKeys : List PKey :=
  [PKey.publicholiday, PKey.sunday, PKey.saturday_ordinary, PKey.saturday]

/-! ## Classification (calculator.py lines 43-95) -/

/-- Embeds calculator._day_type. -/
def day_type_of (y mo dy : ℤ) (is_public_holiday : Bool) : String :=
  if is_public_holiday then "public_holiday"
  else
    let w := pyWeekday (daysFromCivil y mo dy)
    if w = 6 then "sunday" else if w = 5 then "saturday" else "weekday"

/-- Embeds calculator._base_penalty_key_for_moment on a moment given in
seconds since the epoch. -/
def basePenaltyKey (s : ℚ) (is_public_holiday : Bool) : PKey :=
  let w := pyWeekday (dayOf s)
  let hour : ℚ := ((hourOf s : ℤ) : ℚ) + ((minuteOf s : ℤ) : ℚ) / 60
  if is_public_holiday then PKey.publicholiday
  else if w = 6 then PKey.sunday
  else if w = 5 then PKey.saturday_ordinary
  else if hour < EARLY_BOUNDARY then PKey.weekday_early_late
  else if hour < LATE_BOUNDARY then PKey.ordinary
  else if w = 4 then PKey.friday_late
  else PKey.weekday_early_late

/-- Embeds calculator._segment_description, including the source behaviour of
desc_map.get(key, key) returning the key itself for a key outside the map. -/
def segmentDescription (pk : PKey) (overtime_mult : ℚ) : String :=
  let desc :=
    match pk with
    | PKey.ordinary => "Ordinary hours"
    | PKey.weekday_early_late => "Weekday early/late"
    | PKey.friday_late => "Friday after 6pm"
    | PKey.saturday_ordinary => "Saturday - ordinary hours"
    | PKey.saturday => "Saturday - ordinary hours"
    | PKey.sunday => "Sunday - ordinary hours"
    | PKey.publicholiday => "Public holiday"
    | PKey.minimum_engagement_padding => "minimum_engagement_padding"
  if 2 ≤ overtime_mult then desc ++ " (overtime - beyond 3 hours)"
  else if 3/2 ≤ overtime_mult then desc ++ " (overtime - first 3 hours)"
  else desc

/-- Padding segment description (calculator.py lines 195-203). -/
def paddingDescription (padKey : PKey) : String :=
  if padKey = PKey.sunday then "Minimum engagement padding (Sunday rate)"
  else if padKey = PKey.saturday_ordinary ∨ padKey = PKey.saturday then
    "Minimum engagement padding (Saturday rate)"
  else if padKey = PKey.publicholiday then "Minimum engagement padding (Public holiday rate)"
  else "Minimum engagement padding (Weekday rate)"

/-! ## Start time parsing (calculator.py lines 35-40 and the datetime
constructor validation on line 117) -/

/-- Is the character an ASCII decimal digit. -/
def isDigitCh (c : Char) : Bool := 48 ≤ c.toNat ∧ c.toNat ≤ 57

/-- Is the character whitespace in the sense of Python str.strip / int(). -/
def isSpaceCh (c : Char) : Bool :=
  c = ' ' ∨ c = '\t' ∨ c = '\n' ∨ c = '\r' ∨ c.toNat = 11 ∨ c.toNat = 12

/-- Accumulate decimal digits; any non-digit character aborts. -/
def digitsToNatAux : ℕ → List Char → Option ℕ
  | acc, [] => some acc
  | acc, c :: rest =>
    if isDigitCh c then digitsToNatAux (10 * acc + (c.toNat - 48)) rest else none

/-- Parse a nonempty all-digit character list. -/
def digitsToNat (l : List Char) : Option ℕ :=
  match l with
  | [] => none
  | _ => digitsToNatAux 0 l

/-- Strip leading and trailing whitespace from a character list. -/
def stripChars (l : List Char) : List Char :=
  ((l.dropWhile isSpaceCh).reverse.dropWhile isSpaceCh).reverse

/-- Embeds Python int(s) on a string: optional sign, then digits; anything
else raises ValueError (= none). -/
def pyInt (s : List Char) : Option ℤ :=
  match stripChars s with
  | '+' :: rest => (digitsToNat rest).map fun n => (n : ℤ)
  | '-' :: rest => (digitsToNat rest).map fun n => -(n : ℤ)
  | l => (digitsToNat l).map fun n => (n : ℤ)

/-- Split a character list on the colon character (Python str.split with a
separator: no empty-part collapsing). -/
def splitColon : List Char → List (List Char)
  | [] => [[]]
  | c :: rest =>
    if c = ':' then [] :: splitColon rest
    else
      match splitColon rest with
      | [] => [[c]]
      | p :: ps => (c :: p) :: ps

/-- Embeds calculator._parse_time: strip, split on colon, int() the first
part (and the second when present, else 0). -/
def parse_time (hhmm : String) : Option (ℤ × ℤ) :=
  let parts := splitColon (stripChars hhmm.data)
  let ho : Option ℤ :=
    match parts with
    | [] => some 0
    | p :: _ => pyInt p
  let mo : Option ℤ :=
    match parts with
    | _ :: p :: _ => pyInt p
    | _ => some 0
  match ho, mo with
  | some h, some m => some (h, m)
  | _, _ => none

/-- Parsing plus the range validation performed by the
datetime(year, month, day, h, m, 0) constructor. -/
def parseStart (hhmm : String) : Option (ℤ × ℤ) :=
  match parse_time hhmm with
  | none => none
  | some (h, m) => if 0 ≤ h ∧ h < 24 ∧ 0 ≤ m ∧ m < 60 then some (h, m) else none

/-! ## Fine-Grained Engine (calculator.calculate_shift, lines 98-237) -/

/-- State of the slice loop of calculate_shift: elapsed shift seconds,
remaining unpaid-break seconds, the daily_worked dictionary (epoch day to
worked seconds) and the segment_accum dictionary ((penalty key, overtime
multiplier) to list of slice hours), both as insertion-ordered association
lists exactly like Python dicts. -/
structure LoopState where
  tSec : ℚ
  breakRem : ℚ
  daily : List (ℤ × ℚ)
  accum : List ((PKey × ℚ) × List ℚ)
deriving DecidableEq

/-- defaultdict(float) read: daily_worked[ymd] with default 0. -/
def lookupDaily : List (ℤ × ℚ) → ℤ → ℚ
  | [], _ => 0
  | (k', v) :: rest, k => if k' = k then v else lookupDaily rest k

/-- daily_worked[ymd] += sec, preserving first-insertion order. -/
def addDaily : List (ℤ × ℚ) → ℤ → ℚ → List (ℤ × ℚ)
  | [], k, v => [(k, v)]
  | (k', v') :: rest, k, v =>
    if k' = k then (k', v' + v) :: rest else (k', v') :: addDaily rest k v

/-- segment_accum[seg_key].append(work_hours), preserving first-insertion
order of keys (Python dict / defaultdict(list) semantics). -/
def addToBucket : List ((PKey × ℚ) × List ℚ) → PKey × ℚ → ℚ → List ((PKey × ℚ) × List ℚ)
  | [], k, v => [(k, [v])]
  | (k', vs) :: rest, k, v =>
    if k' = k then (k', vs ++ [v]) :: rest else (k', vs) :: addToBucket rest k v

/-- The overtime multiplier chosen for one worked slice
(calculator.py lines 153-160). -/
def sliceOvertimeMult (dow : ℤ) (base_key : PKey) (hours_before : ℚ) : ℚ :=
  if dow ≤ 4 ∧ base_key ∉ flatKeys then
    if ORDINARY_HOURS_THRESHOLD ≤ hours_before then
      if hours_before - ORDINARY_HOURS_THRESHOLD < 3 then OVERTIME_FIRST_3 else OVERTIME_BEYOND_3
    else 1
  else 1

/-- One iteration of the slice loop (calculator.py lines 135-172).  The rate
computed on lines 162-166 of the source is not stored in the accumulator
(only hours are appended) and is therefore not recomputed here. -/
def stepOnce (startSec totalSeconds : ℚ) (is_ph : Bool) (s : LoopState) : LoopState :=
  let step := min 360 (totalSeconds - s.tSec)
  if 0 < s.breakRem then
    { s with breakRem := s.breakRem - min step s.breakRem, tSec := s.tSec + step }
  else
    let current := startSec + s.tSec
    let dayKey := dayOf current
    let hours_before := lookupDaily s.daily dayKey / 3600
    let base_key := basePenaltyKey current is_ph
    let dow := pyWeekday (dayOf current)
    let ot := sliceOvertimeMult dow base_key hours_before
    { tSec := s.tSec + step,
      breakRem := s.breakRem,
      daily := addDaily s.daily dayKey step,
      accum := addToBucket s.accum (base_key, ot) (step / 3600) }

/-- The while loop of calculate_shift, driven by fuel; each fuel unit allows
one test of the guard t_sec < total_seconds. -/
def sliceLoopAux (startSec totalSeconds : ℚ) (is_ph : Bool) : ℕ → LoopState → LoopState
  | 0, s => s
  | fuel + 1, s =>
    if s.tSec < totalSeconds then
      sliceLoopAux startSec totalSeconds is_ph fuel (stepOnce startSec totalSeconds is_ph s)
    else s

/-- Number of guard tests needed by the loop: the ceiling of
total_seconds / 360. -/
def sliceFuel (totalSeconds : ℚ) : ℕ := ⌈totalSeconds / 360⌉.toNat

/-- The evolution of t_sec alone under the loop. -/
def sliceTimeAfter (totalSeconds : ℚ) : ℕ → ℚ → ℚ
  | 0, t => t
  | fuel + 1, t =>
    if t < totalSeconds then sliceTimeAfter totalSeconds fuel (t + min 360 (totalSeconds - t))
    else t

/-- Number of loop iterations actually executed within the given fuel. -/
def sliceIterCount (totalSeconds : ℚ) : ℕ → ℚ → ℕ
  | 0, _ => 0
  | fuel + 1, t =>
    if t < totalSeconds then sliceIterCount totalSeconds fuel (t + min 360 (totalSeconds - t)) + 1
    else 0

/-- paid_hours_raw of calculate_shift (lines 118-121): worked seconds are
clamped at zero before converting back to hours. -/
def paidHoursRaw (duration_hours break_minutes : ℚ) : ℚ :=
  max 0 (duration_hours * 3600 - break_minutes * 60) / 3600

/-- The accumulated buckets of calculate_shift after the loop and after the
minimum-engagement padding bucket has been appended when the raw hours fall
short (lines 123-188). -/
def shiftBuckets (startSec duration_hours break_minutes : ℚ) (is_ph : Bool) :
    List ((PKey × ℚ) × List ℚ) :=
  let final := sliceLoopAux startSec (duration_hours * 3600) is_ph
    (sliceFuel (duration_hours * 3600)) ⟨0, break_minutes * 60, [], []⟩
  if paidHoursRaw duration_hours break_minutes < MINIMUM_ENGAGEMENT_HOURS then
    addToBucket final.accum (PKey.minimum_engagement_padding, 1)
      (MINIMUM_ENGAGEMENT_HOURS - paidHoursRaw duration_hours break_minutes)
  else final.accum

/-- Output segment record (models the per-segment dict of the source). -/
structure Segment where
  description : String
  hours : ℚ
  rate : ℚ
  cost : ℚ
  penalty_key : PKey
deriving DecidableEq

/-- rate_full of the merge stage (calculator.py lines 204-211). -/
def segRateFull (startSec : ℚ) (is_ph : Bool) (ord : ℚ) (b : (PKey × ℚ) × List ℚ) : ℚ :=
  if b.1.1 = PKey.minimum_engagement_padding then
    penaltyRateRoundedD ord (basePenaltyKey startSec is_ph)
  else if b.1.1 ∈ flatKeys then penaltyRateFullD ord b.1.1
  else ord * penaltyMultD b.1.1 * b.1.2

/-- Merge one accumulated bucket into an output segment
(calculator.py lines 192-225). -/
def mkSegment (startSec : ℚ) (is_ph : Bool) (ord : ℚ) (b : (PKey × ℚ) × List ℚ) : Segment :=
  let total_h := b.2.sum
  let desc :=
    if b.1.1 = PKey.minimum_engagement_padding then
      paddingDescription (basePenaltyKey startSec is_ph)
    else segmentDescription b.1.1 b.1.2
  let rate_full := segRateFull startSec is_ph ord b
  let rate_rounded := round_half_up rate_full 2
  let cost :=
    if (b.1.1 = PKey.saturday_ordinary ∨ b.1.1 = PKey.saturday)
        ∧ ¬b.1.1 = PKey.minimum_engagement_padding then
      round_half_up (total_h * rate_full) 2
    else round_half_up (total_h * rate_rounded) 2
  ⟨desc, pyRound2 total_h, rate_rounded, cost, b.1.1⟩

/-- Output record of both engines (models the returned dict / ShiftResponse
shape). -/
structure ShiftResult where
  shift_date : ℤ × ℤ × ℤ
  day_type : String
  paid_hours : ℚ
  gross_pay : ℚ
  segments : List Segment
  warnings : List String
deriving DecidableEq

/-- Embeds calculator.get_ordinary_hourly_rate. -/
def get_ordinary_hourly_rate (base_weekly_rate casual_loading_percent : ℚ) : ℚ :=
  round_half_up ((base_weekly_rate / STANDARD_HOURS) * (1 + casual_loading_percent / 100)) 2

/-- The body of calculate_shift after a successfully parsed and validated
start time (h, m). -/
def calcShiftCore (y mo dy h m : ℤ) (duration_hours break_minutes : ℚ) (is_ph : Bool)
    (casual_loading_percent base_weekly_rate : ℚ) : ShiftResult :=
  let ordinary_rate := get_ordinary_hourly_rate base_weekly_rate casual_loading_percent
  let startSec := startSecOf y mo dy h m
  let buckets := shiftBuckets startSec duration_hours break_minutes is_ph
  let segments_out := buckets.map (mkSegment startSec is_ph ordinary_rate)
  let raw := paidHoursRaw duration_hours break_minutes
  let paid_hours := if raw < MINIMUM_ENGAGEMENT_HOURS then MINIMUM_ENGAGEMENT_HOURS else raw
  let warnings := if raw < MINIMUM_ENGAGEMENT_HOURS then [minEngagementWarning raw] else []
  { shift_date := (y, mo, dy),
    day_type := day_type_of y mo dy is_ph,
    paid_hours := pyRound2 paid_hours,
    gross_pay := round_half_up ((segments_out.map Segment.cost).sum) 2,
    segments := segments_out,
    warnings := warnings }

/-- Embeds calculator.calculate_shift.  A ValueError raised while parsing the
start time (non-numeric parts, or hour/minute out of range for the datetime
constructor) is modelled as none; every other input produces a result. -/
def calculate_shift (y mo dy : ℤ) (start_time : String) (duration_hours break_minutes : ℚ)
    (is_ph : Bool) (casual_loading_percent base_weekly_rate : ℚ) : Option ShiftResult :=
  match parseStart start_time with
  | none => none
  | some (h, m) =>
    some (calcShiftCore y mo dy h m duration_hours break_minutes is_ph
      casual_loading_percent base_weekly_rate)

/-! ## Rate-Table Engine (calculator.calculate_shift_from_rates,
lines 240-363) -/

/-- The six per-day-type rates after loading and fallback resolution
(calculator.py lines 261-272). -/
structure ResolvedRates where
  ordR : ℚ
  satR : ℚ
  sunR : ℚ
  phR : ℚ
  ot1R : ℚ
  ot2R : ℚ
deriving DecidableEq

/-- Python x or d for floats: a zero (falsy) value selects the fallback. -/
def pyOrQ (x d : ℚ) : ℚ := if x = 0 then d else x

/-- Python x or d where x may be None (the result of _load on an optional
rate): None and 0.0 both select the fallback. -/
def pyOrOptQ (x : Option ℚ) (d : ℚ) : ℚ :=
  match x with
  | none => d
  | some v => pyOrQ v d

/-- Embeds the rate-resolution prologue of calculate_shift_from_rates:
_load applies the casual loading and rounds to cents; absent or zero rates
fall back to the default multiplier on the loaded ordinary rate. -/
def resolveRates (ordinary_rate : ℚ)
    (saturday_rate sunday_rate public_holiday_rate overtime_first_rate overtime_after_rate :
      Option ℚ) (loading : ℚ) : ResolvedRates :=
  let load : Option ℚ → Option ℚ := Option.map fun r => round_half_up (r * loading) 2
  let ordR := pyOrQ (round_half_up (ordinary_rate * loading) 2) 0
  { ordR := ordR,
    satR := pyOrOptQ (load saturday_rate) (round_half_up (ordR * (5/4)) 2),
    sunR := pyOrOptQ (load sunday_rate) (round_half_up (ordR * (3/2)) 2),
    phR := pyOrOptQ (load public_holiday_rate) (round_half_up (ordR * (9/4)) 2),
    ot1R := pyOrOptQ (load overtime_first_rate) (round_half_up (ordR * (3/2)) 2),
    ot2R := pyOrOptQ (load overtime_after_rate) (round_half_up (ordR * 2) 2) }

/-- Embeds calculator.calculate_shift_from_rates.  The start_time parameter
is accepted but never used, exactly as in the source. -/
def calculate_shift_from_rates (y mo dy : ℤ) (start_time : String)
    (duration_hours break_minutes : ℚ) (is_ph : Bool) (ordinary_rate : ℚ)
    (saturday_rate sunday_rate public_holiday_rate overtime_first_rate overtime_after_rate :
      Option ℚ) (casual_loading_percent : ℚ) : ShiftResult :=
  let raw := max (duration_hours - break_minutes / 60) 0
  let day_type := day_type_of y mo dy is_ph
  let loading := 1 + casual_loading_percent / 100
  let rr := resolveRates ordinary_rate saturday_rate sunday_rate public_holiday_rate
    overtime_first_rate overtime_after_rate loading
  let paid_hours := if raw < MINIMUM_ENGAGEMENT_HOURS then MINIMUM_ENGAGEMENT_HOURS else raw
  let warnings := if raw < MINIMUM_ENGAGEMENT_HOURS then [minEngagementWarning raw] else []
  let segments : List Segment :=
    if day_type = "saturday" then
      [⟨"Saturday - ordinary hours", paid_hours, rr.satR,
        round_half_up (paid_hours * rr.satR) 2, PKey.saturday_ordinary⟩]
    else if day_type = "sunday" then
      [⟨"Sunday - ordinary hours", paid_hours, rr.sunR,
        round_half_up (paid_hours * rr.sunR) 2, PKey.sunday⟩]
    else if day_type = "public_holiday" then
      [⟨"Public holiday", paid_hours, rr.phR,
        round_half_up (paid_hours * rr.phR) 2, PKey.publicholiday⟩]
    else
      let ordinary_hours := min paid_hours ORDINARY_HOURS_THRESHOLD
      let seg1 : Segment := ⟨"Ordinary hours", ordinary_hours, rr.ordR,
        round_half_up (ordinary_hours * rr.ordR) 2, PKey.ordinary⟩
      if ORDINARY_HOURS_THRESHOLD < paid_hours then
        let ot_hours := paid_hours - ORDINARY_HOURS_THRESHOLD
        let first_ot := min ot_hours 3
        let seg2 : Segment := ⟨"Ordinary hours (overtime - first 3 hours)", first_ot, rr.ot1R,
          round_half_up (first_ot * rr.ot1R) 2, PKey.ordinary⟩
        if 3 < ot_hours then
          [seg1, seg2,
           ⟨"Ordinary hours (overtime - beyond 3 hours)", ot_hours - 3, rr.ot2R,
            round_half_up ((ot_hours - 3) * rr.ot2R) 2, PKey.ordinary⟩]
        else [seg1, seg2]
      else [seg1]
  { shift_date := (y, mo, dy),
    day_type := day_type,
    paid_hours := pyRound2 paid_hours,
    gross_pay := round_half_up ((segments.map Segment.cost).sum) 2,
    segments := segments,
    warnings := warnings }

/-! ## Boolean comparators for kernel-friendly evaluation of concrete runs -/

/-- Structural boolean equality on rationals through numerator and
denominator. -/
def qBeq (a b : ℚ) : Bool := a.num == b.num && a.den == b.den

theorem qBeq_sound {a b : ℚ} (h : qBeq a b = true) : a = b := by
  have h1 := Bool.and_eq_true_iff.mp h
  exact Rat.ext (eq_of_beq h1.1) (eq_of_beq h1.2)

/-- Boolean equality on lists lifted from an element comparator. -/
def listBeq (f : α → α → Bool) : List α → List α → Bool
  | [], [] => true
  | a :: as, b :: bs => f a b && listBeq f as bs
  | _, _ => false

theorem listBeq_sound {f : α → α → Bool} (hf : ∀ a b, f a b = true → a = b) :
    ∀ {l1 l2 : List α}, listBeq f l1 l2 = true → l1 = l2 := by
  intro l1
  induction l1 with
  | nil => intro l2 h; cases l2 with
    | nil => rfl
    | cons b bs => simp [listBeq] at h
  | cons a as ih =>
    intro l2 h
    cases l2 with
    | nil => simp [listBeq] at h
    | cons b bs =>
      have h1 := Bool.and_eq_true_iff.mp h
      rw [hf a b h1.1, ih h1.2]

/-- Boolean equality on pairs lifted from component comparators. -/
def pairBeq (f : α → α → Bool) (g : β → β → Bool) (x y : α × β) : Bool :=
  f x.1 y.1 && g x.2 y.2

theorem pairBeq_sound {f : α → α → Bool} {g : β → β → Bool}
    (hf : ∀ a b, f a b = true → a = b) (hg : ∀ a b, g a b = true → a = b)
    {x y : α × β} (h : pairBeq f g x y = true) : x = y := by
  have h1 := Bool.and_eq_true_iff.mp h
  exact Prod.ext (hf _ _ h1.1) (hg _ _ h1.2)

/-- Boolean equality of integers via the primitive beq. -/
def zBeq (a b : ℤ) : Bool := a == b

theorem zBeq_sound {a b : ℤ} (h : zBeq a b = true) : a = b := eq_of_beq h

/-- Boolean equality of penalty keys via decidable equality. -/
def pkBeq (a b : PKey) : Bool := decide (a = b)

theorem pkBeq_sound {a b : PKey} (h : pkBeq a b = true) : a = b := of_decide_eq_true h

/-- Boolean equality of loop states. -/
def lsBeq (a b : LoopState) : Bool :=
  qBeq a.tSec b.tSec && qBeq a.breakRem b.breakRem
    && listBeq (pairBeq zBeq qBeq) a.daily b.daily
    && listBeq (pairBeq (pairBeq pkBeq qBeq) (listBeq qBeq)) a.accum b.accum

theorem lsBeq_sound {a b : LoopState} (h : lsBeq a b = true) : a = b := by
  have h1 := Bool.and_eq_true_iff.mp h
  have h2 := Bool.and_eq_true_iff.mp h1.1
  have h3 := Bool.and_eq_true_iff.mp h2.1
  obtain ⟨a1, a2, a3, a4⟩ := a
  obtain ⟨b1, b2, b3, b4⟩ := b
  have e1 : a1 = b1 := qBeq_sound h3.1
  have e2 : a2 = b2 := qBeq_sound h3.2
  have e3 : a3 = b3 :=
    listBeq_sound (fun a b => pairBeq_sound (fun _ _ => zBeq_sound) (fun _ _ => qBeq_sound)) h2.2
  have e4 : a4 = b4 :=
    listBeq_sound
      (fun a b => pairBeq_sound
        (fun _ _ => pairBeq_sound (fun _ _ => pkBeq_sound) (fun _ _ => qBeq_sound))
        (fun _ _ => listBeq_sound (fun _ _ => qBeq_sound))) h1.2
  subst e1; subst e2; subst e3; subst e4
  rfl

/-- Boolean equality of strings via decidable equality. -/
def strBeq (a b : String) : Bool := decide (a = b)

theorem strBeq_sound {a b : String} (h : strBeq a b = true) : a = b := of_decide_eq_true h

/-- Boolean equality of segments. -/
def segBeq (a b : Segment) : Bool :=
  strBeq a.description b.description && qBeq a.hours b.hours && qBeq a.rate b.rate
    && qBeq a.cost b.cost && pkBeq a.penalty_key b.penalty_key

theorem segBeq_sound {a b : Segment} (h : segBeq a b = true) : a = b := by
  have h1 := Bool.and_eq_true_iff.mp h
  have h2 := Bool.and_eq_true_iff.mp h1.1
  have h3 := Bool.and_eq_true_iff.mp h2.1
  have h4 := Bool.and_eq_true_iff.mp h3.1
  obtain ⟨a1, a2, a3, a4, a5⟩ := a
  obtain ⟨b1, b2, b3, b4, b5⟩ := b
  have e1 : a1 = b1 := strBeq_sound h4.1
  have e2 : a2 = b2 := qBeq_sound h4.2
  have e3 : a3 = b3 := qBeq_sound h3.2
  have e4 : a4 = b4 := qBeq_sound h2.2
  have e5 : a5 = b5 := pkBeq_sound h1.2
  subst e1; subst e2; subst e3; subst e4; subst e5
  rfl

/-- Boolean equality of shift results. -/
def srBeq (a b : ShiftResult) : Bool :=
  pairBeq zBeq (pairBeq zBeq zBeq) a.shift_date b.shift_date
    && strBeq a.day_type b.day_type && qBeq a.paid_hours b.paid_hours
    && qBeq a.gross_pay b.gross_pay && listBeq segBeq a.segments b.segments
    && listBeq strBeq a.warnings b.warnings

theorem srBeq_sound {a b : ShiftResult} (h : srBeq a b = true) : a = b := by
  have h1 := Bool.and_eq_true_iff.mp h
  have h2 := Bool.and_eq_true_iff.mp h1.1
  have h3 := Bool.and_eq_true_iff.mp h2.1
  have h4 := Bool.and_eq_true_iff.mp h3.1
  have h5 := Bool.and_eq_true_iff.mp h4.1
  obtain ⟨a1, a2, a3, a4, a5, a6⟩ := a
  obtain ⟨b1, b2, b3, b4, b5, b6⟩ := b
  have e1 : a1 = b1 :=
    pairBeq_sound (fun _ _ => zBeq_sound)
      (fun _ _ => pairBeq_sound (fun _ _ => zBeq_sound) (fun _ _ => zBeq_sound)) h5.1
  have e2 : a2 = b2 := strBeq_sound h5.2
  have e3 : a3 = b3 := qBeq_sound h4.2
  have e4 : a4 = b4 := qBeq_sound h3.2
  have e5 : a5 = b5 := listBeq_sound (fun _ _ => segBeq_sound) h2.2
  have e6 : a6 = b6 := listBeq_sound (fun _ _ => strBeq_sound) h1.2
  subst e1; subst e2; subst e3; subst e4; subst e5; subst e6
  rfl

/-! ## Basic loop lemmas -/

theorem sliceLoopAux_stopped {T : ℚ} {s : LoopState} (a : ℚ) (ph : Bool)
    (hg : ¬s.tSec < T) : ∀ n, sliceLoopAux a T ph n s = s := by
  intro n
  cases n with
  | zero => rfl
  | succ k => simp [sliceLoopAux, hg]

theorem sliceLoopAux_add (a T : ℚ) (ph : Bool) (m n : ℕ) (s : LoopState) :
    sliceLoopAux a T ph (m + n) s = sliceLoopAux a T ph n (sliceLoopAux a T ph m s) := by
  induction m generalizing s with
  | zero => simp [sliceLoopAux]
  | succ k ih =>
    rw [Nat.succ_add]
    by_cases hg : s.tSec < T
    · simp only [sliceLoopAux, hg, if_true]
      exact ih (stepOnce a T ph s)
    · simp only [sliceLoopAux, hg, if_false]
      rw [sliceLoopAux_stopped a ph hg]

theorem stepOnce_tSec (a T : ℚ) (ph : Bool) (s : LoopState) :
    (stepOnce a T ph s).tSec = s.tSec + min 360 (T - s.tSec) := by
  unfold stepOnce
  by_cases h : 0 < s.breakRem <;> simp [h]

theorem sliceLoopAux_tSec (a T : ℚ) (ph : Bool) :
    ∀ (n : ℕ) (s : LoopState),
      (sliceLoopAux a T ph n s).tSec = sliceTimeAfter T n s.tSec := by
  intro n
  induction n with
  | zero => intro s; rfl
  | succ k ih =>
    intro s
    by_cases hg : s.tSec < T
    · simp only [sliceLoopAux, sliceTimeAfter, hg, if_true]
      rw [ih, stepOnce_tSec]
    · simp only [sliceLoopAux, sliceTimeAfter, hg, if_false]

example : parseStart "10:00" = some (10, 0) := by with_unfolding_all decide
example : parseStart "9:5" = some (9, 5) := by with_unfolding_all decide
example : parseStart " 23:59 " = some (23, 59) := by with_unfolding_all decide
example : parseStart "10" = some (10, 0) := by with_unfolding_all decide
example : parseStart "ab:cd" = none := by with_unfolding_all decide
example : parseStart "25:00" = none := by with_unfolding_all decide
example : parseStart "10:" = none := by with_unfolding_all decide
example : pyWeekday (daysFromCivil 2025 1 6) = 0 := by with_unfolding_all decide
example : pyWeekday (daysFromCivil 2025 1 11) = 5 := by with_unfolding_all decide
example : pyWeekday (daysFromCivil 2025 1 12) = 6 := by with_unfolding_all decide
example : formatFixed2 2 = "2.00" := by with_unfolding_all decide
example : round_half_up (9957/200 : ℚ) 2 = 4979/100 := qBeq_sound (by with_unfolding_all decide)

/-! ## Support lemmas for the claims -/

theorem calculate_shift_some_iff (y mo dy : ℤ) (st : String) (dur brk cl base : ℚ)
    (ph : Bool) (r : ShiftResult) :
    calculate_shift y mo dy st dur brk ph cl base = some r ↔
      ∃ h m, parseStart st = some (h, m) ∧ r = calcShiftCore y mo dy h m dur brk ph cl base := by
  unfold calculate_shift
  cases hp : parseStart st with
  | none => simp
  | some v =>
    obtain ⟨h, m⟩ := v
    simp only [Option.some.injEq]
    constructor
    · intro he
      exact ⟨h, m, rfl, he.symm⟩
    · rintro ⟨h', m', hpe, hre⟩
      obtain ⟨rfl, rfl⟩ : h' = h ∧ m' = m := by
        have := hpe
        simp only [Option.some.injEq, Prod.mk.injEq] at this
        exact ⟨this.1.symm, this.2.symm⟩
      exact hre.symm

/-! ## Claim theorems -/

/-- Claim C1, counterexample: contrary to the claim, a negative duration is
not rejected: calculate_shift on a Monday shift with duration -5 hours
returns a complete ShiftResult (padded to the minimum engagement), not an
input-validation error. -/
theorem claim_C1_counterexample :
    (calculate_shift 2025 1 6 "10:00" (-5) 0 false 0 BASE_WEEKLY_RATE).isSome = true := by
  with_unfolding_all decide

/-- Claim C1 (amended): calculate_shift fails exactly when the start time
fails to parse or validate as HH:MM (non-numeric parts, or hour/minute out
of range for the datetime constructor); for every other input, including
negative durations and negative breaks, it returns a complete result. -/
theorem claim_C1 (y mo dy : ℤ) (st : String) (dur brk cl base : ℚ) (ph : Bool) :
    (calculate_shift y mo dy st dur brk ph cl base).isSome = (parseStart st).isSome := by
  unfold calculate_shift
  cases hp : parseStart st with
  | none => rfl
  | some v =>
    obtain ⟨h, m⟩ := v
    rfl

/-- Claim C4: get_ordinary_hourly_rate computes
round_half_up((base_weekly_rate / 38) * (1 + p / 100), 2) for every loading
percentage p in [0, 100], where round_half_up at two decimals multiplies by
100, adds one half, floors and divides back; with the built-in base weekly
rate 1008.90, loading 25 gives 33.19 and loading 0 gives 26.55. -/
theorem claim_C4 :
    (∀ p : ℚ, 0 ≤ p → p ≤ 100 →
        get_ordinary_hourly_rate BASE_WEEKLY_RATE p
          = round_half_up ((BASE_WEEKLY_RATE / 38) * (1 + p / 100)) 2)
    ∧ (∀ v : ℚ, round_half_up v 2 = (((v * 100 + 1/2).floor : ℤ) : ℚ) / 100)
    ∧ get_ordinary_hourly_rate BASE_WEEKLY_RATE 25 = 3319/100
    ∧ get_ordinary_hourly_rate BASE_WEEKLY_RATE 0 = 2655/100 := by
  refine ⟨fun p _ _ => rfl, fun v => ?_, qBeq_sound (by with_unfolding_all decide),
    qBeq_sound (by with_unfolding_all decide)⟩
  show round_half_up v 2 = ((v * 100 + 1/2).floor : ℚ) / 100
  unfold round_half_up
  norm_num

/-- Witness for claim C4 at loading 25. -/
theorem claim_C4_witness :
    (0 : ℚ) ≤ 25 ∧ (25 : ℚ) ≤ 100 ∧
      get_ordinary_hourly_rate BASE_WEEKLY_RATE 25
        = round_half_up ((BASE_WEEKLY_RATE / 38) * (1 + 25 / 100)) 2 :=
  ⟨by norm_num, by norm_num, claim_C4.1 25 (by norm_num) (by norm_num)⟩

/-- Claim C7: the Monday 2025-01-06 shift from 10:00 for 12 hours with no
break, no public holiday and zero casual loading yields gross pay 373.04,
paid hours 12.0 and day type weekday (the full result record is computed
exactly). -/
theorem claim_C7 :
    calculate_shift 2025 1 6 "10:00" 12 0 false 0 BASE_WEEKLY_RATE =
      some
        { shift_date := (2025, 1, 6),
          day_type := "weekday",
          paid_hours := 12,
          gross_pay := 37304/100,
          segments :=
            [⟨"Ordinary hours", 8, 531/20, 1062/5, PKey.ordinary⟩,
             ⟨"Weekday early/late", 1, 2921/100, 2921/100, PKey.weekday_early_late⟩,
             ⟨"Weekday early/late (overtime - first 3 hours)", 3, 4381/100, 13143/100,
              PKey.weekday_early_late⟩],
          warnings := [] } := by
  have hp : parseStart "10:00" = some (10, 0) := by with_unfolding_all decide
  unfold calculate_shift
  rw [hp]
  exact congrArg some (srBeq_sound (by with_unfolding_all decide))

/-- Claim C8: every result of either engine reports as gross pay exactly the
round-half-up to cents of the sum of its segment costs. -/
theorem claim_C8 (y mo dy : ℤ) (st : String) (dur brk cl base : ℚ) (ph : Bool)
    (r : ShiftResult) (hp : calculate_shift y mo dy st dur brk ph cl base = some r) :
    r.gross_pay = round_half_up ((r.segments.map Segment.cost).sum) 2
    ∧ ∀ (y2 mo2 dy2 : ℤ) (st2 : String) (dur2 brk2 orate cl2 : ℚ) (ph2 : Bool)
        (sr su pr o1 o2 : Option ℚ),
        (calculate_shift_from_rates y2 mo2 dy2 st2 dur2 brk2 ph2 orate sr su pr o1 o2 cl2).gross_pay
          = round_half_up
              (((calculate_shift_from_rates y2 mo2 dy2 st2 dur2 brk2 ph2 orate sr su pr o1 o2
                  cl2).segments.map Segment.cost).sum) 2 := by
  constructor
  · obtain ⟨h, m, _, hre⟩ := (calculate_shift_some_iff y mo dy st dur brk cl base ph r).mp hp
    subst hre
    rfl
  · intro y2 mo2 dy2 st2 dur2 brk2 orate cl2 ph2 sr su pr o1 o2
    rfl

/-- Witness for claim C8 on a concrete zero-duration Monday shift. -/
theorem claim_C8_witness :
    (calcShiftCore 2025 1 6 10 0 0 0 false 0 BASE_WEEKLY_RATE).gross_pay
      = round_half_up
          (((calcShiftCore 2025 1 6 10 0 0 0 false 0 BASE_WEEKLY_RATE).segments.map
            Segment.cost).sum) 2
    ∧ ∀ (y2 mo2 dy2 : ℤ) (st2 : String) (dur2 brk2 orate cl2 : ℚ) (ph2 : Bool)
        (sr su pr o1 o2 : Option ℚ),
        (calculate_shift_from_rates y2 mo2 dy2 st2 dur2 brk2 ph2 orate sr su pr o1 o2 cl2).gross_pay
          = round_half_up
              (((calculate_shift_from_rates y2 mo2 dy2 st2 dur2 brk2 ph2 orate sr su pr o1 o2
                  cl2).segments.map Segment.cost).sum) 2 :=
  claim_C8 2025 1 6 "10:00" 0 0 0 BASE_WEEKLY_RATE false
    (calcShiftCore 2025 1 6 10 0 0 0 false 0 BASE_WEEKLY_RATE) (by with_unfolding_all decide)

/-- Claim C10: in calculate_shift_from_rates, supplying an optional rate
whose loaded value round2(rate * (1 + loading/100)) is 0.0 is
indistinguishable from supplying it as absent: the Python or-chain treats
the zero (falsy) loaded rate as missing and substitutes the
default-multiplier fallback, for each of the five optional rates. -/
theorem claim_C10 (y mo dy : ℤ) (st : String) (dur brk orate cl v : ℚ) (ph : Bool)
    (sat sun phr o1 o2 : Option ℚ)
    (h : round_half_up (v * (1 + cl / 100)) 2 = 0) :
    calculate_shift_from_rates y mo dy st dur brk ph orate (some v) sun phr o1 o2 cl
        = calculate_shift_from_rates y mo dy st dur brk ph orate none sun phr o1 o2 cl
    ∧ calculate_shift_from_rates y mo dy st dur brk ph orate sat (some v) phr o1 o2 cl
        = calculate_shift_from_rates y mo dy st dur brk ph orate sat none phr o1 o2 cl
    ∧ calculate_shift_from_rates y mo dy st dur brk ph orate sat sun (some v) o1 o2 cl
        = calculate_shift_from_rates y mo dy st dur brk ph orate sat sun none o1 o2 cl
    ∧ calculate_shift_from_rates y mo dy st dur brk ph orate sat sun phr (some v) o2 cl
        = calculate_shift_from_rates y mo dy st dur brk ph orate sat sun phr none o2 cl
    ∧ calculate_shift_from_rates y mo dy st dur brk ph orate sat sun phr o1 (some v) cl
        = calculate_shift_from_rates y mo dy st dur brk ph orate sat sun phr o1 none cl := by
  have hz : ∀ d : ℚ,
      pyOrOptQ (Option.map (fun r => round_half_up (r * (1 + cl / 100)) 2) (some v)) d
        = pyOrOptQ (Option.map (fun r => round_half_up (r * (1 + cl / 100)) 2) none) d := by
    intro d
    simp [pyOrOptQ, pyOrQ, h]
  refine ⟨?_, ?_, ?_, ?_, ?_⟩ <;>
    · unfold calculate_shift_from_rates
      unfold resolveRates
      simp only [hz]

/-- Witness for claim C10 at rate 0 with zero loading. -/
theorem claim_C10_witness :
    round_half_up ((0 : ℚ) * (1 + 0 / 100)) 2 = 0
    ∧ calculate_shift_from_rates 2025 1 8 "09:00" 5 0 false (531/20) (some 0) none none none
          none 0
        = calculate_shift_from_rates 2025 1 8 "09:00" 5 0 false (531/20) none none none none
          none 0 :=
  ⟨by with_unfolding_all decide,
   (claim_C10 2025 1 8 "09:00" 5 0 (531/20) 0 0 false none none none none none
      (by with_unfolding_all decide)).1⟩

/-! ## Termination and iteration bound of the slice loop (claim C9) -/

theorem sliceIterCount_le (T : ℚ) : ∀ (n : ℕ) (t : ℚ), sliceIterCount T n t ≤ n := by
  intro n
  induction n with
  | zero => intro t; exact Nat.le_refl 0
  | succ k ih =>
    intro t
    by_cases hg : t < T
    · simp only [sliceIterCount, hg, if_true]
      exact Nat.succ_le_succ (ih _)
    · simp only [sliceIterCount, hg, if_false]
      exact Nat.zero_le _

theorem sliceTimeAfter_complete (T : ℚ) :
    ∀ (n : ℕ) (t : ℚ), T - t ≤ 360 * n → T ≤ sliceTimeAfter T n t := by
  intro n
  induction n with
  | zero =>
    intro t h
    simp only [sliceTimeAfter]
    simp only [Nat.cast_zero, mul_zero] at h
    linarith
  | succ k ih =>
    intro t h
    by_cases hg : t < T
    · simp only [sliceTimeAfter, hg, if_true]
      apply ih
      rcases le_or_lt (T - t) 360 with hle | hlt
      · rw [min_eq_right hle]
        linarith
      · rw [min_eq_left (le_of_lt hlt)]
        push_cast at h ⊢
        linarith
    · simp only [sliceTimeAfter, hg, if_false]
      linarith

/-- Claim C9, counterexample: for duration 0.05 hours the loop performs one
iteration, which is not bounded by duration_hours * 10 = 0.5. -/
theorem claim_C9_counterexample :
    sliceIterCount ((1/20 : ℚ) * 3600) (sliceFuel ((1/20 : ℚ) * 3600)) 0 = 1
    ∧ ¬((sliceIterCount ((1/20 : ℚ) * 3600) (sliceFuel ((1/20 : ℚ) * 3600)) 0 : ℚ)
        ≤ (1/20 : ℚ) * 10) := by
  with_unfolding_all decide

/-- Claim C9 (amended): for every nonnegative duration the slice loop of
calculate_shift terminates, and its number of iterations is bounded by the
ceiling of duration_hours * 10 (so a 24-hour shift performs at most 240
iterations); the bound duration_hours * 10 itself only fails when the
duration is not a multiple of the slice size. -/
theorem claim_C9 (d : ℚ) (hd : 0 ≤ d) :
    sliceIterCount (d * 3600) (sliceFuel (d * 3600)) 0 ≤ (⌈d * 10⌉).toNat
    ∧ d * 3600 ≤ sliceTimeAfter (d * 3600) (sliceFuel (d * 3600)) 0
    ∧ ∀ (a : ℚ) (ph : Bool) (n : ℕ) (s : LoopState),
        (sliceLoopAux a (d * 3600) ph n s).tSec = sliceTimeAfter (d * 3600) n s.tSec := by
  have hfuel : sliceFuel (d * 3600) = (⌈d * 10⌉).toNat := by
    unfold sliceFuel
    have : d * 3600 / 360 = d * 10 := by ring
    rw [this]
  refine ⟨?_, ?_, ?_⟩
  · rw [← hfuel]
    exact sliceIterCount_le _ _ _
  · apply sliceTimeAfter_complete
    have hceil : (d * 3600) / 360 ≤ (⌈d * 3600 / 360⌉ : ℚ) := Int.le_ceil _
    have hnonneg : (0 : ℤ) ≤ ⌈d * 3600 / 360⌉ := by
      apply Int.ceil_nonneg
      positivity
    have hcast : ((sliceFuel (d * 3600) : ℕ) : ℚ) = ((⌈d * 3600 / 360⌉ : ℤ) : ℚ) := by
      unfold sliceFuel
      exact_mod_cast Int.toNat_of_nonneg hnonneg
    rw [hcast]
    have h360 : (0 : ℚ) < 360 := by norm_num
    calc d * 3600 - 0 = 360 * (d * 3600 / 360) := by ring
    _ ≤ 360 * ((⌈d * 3600 / 360⌉ : ℤ) : ℚ) := by linarith [mul_le_mul_of_nonneg_left hceil (le_of_lt h360)]
  · intro a ph n s
    exact sliceLoopAux_tSec a (d * 3600) ph n s

/-- Witness for claim C9 at a 24-hour duration: at most 240 iterations. -/
theorem claim_C9_witness :
    (0 : ℚ) ≤ 24
    ∧ sliceIterCount ((24 : ℚ) * 3600) (sliceFuel ((24 : ℚ) * 3600)) 0 ≤ (⌈(24 : ℚ) * 10⌉).toNat :=
  ⟨by with_unfolding_all decide, (claim_C9 24 (by with_unfolding_all decide)).1⟩

/-! ## Classification facts (claim C5) -/

theorem pyWeekday_nonneg (d : ℤ) : 0 ≤ pyWeekday d := Int.emod_nonneg _ (by norm_num)

theorem pyWeekday_lt (d : ℤ) : pyWeekday d < 7 := Int.emod_lt_of_pos _ (by norm_num)

theorem basePenaltyKey_ne_padding (s : ℚ) (ph : Bool) :
    basePenaltyKey s ph ≠ PKey.minimum_engagement_padding := by
  simp only [basePenaltyKey]
  split_ifs <;> simp

theorem basePenaltyKey_not_flat {s : ℚ} {ph : Bool} (h : basePenaltyKey s ph ∉ flatKeys) :
    ph = false ∧ pyWeekday (dayOf s) ≤ 4 := by
  by_cases hph : ph
  · exfalso
    apply h
    simp [basePenaltyKey, hph, flatKeys]
  · have h0 := pyWeekday_nonneg (dayOf s)
    have h7 := pyWeekday_lt (dayOf s)
    refine ⟨by simpa using hph, ?_⟩
    by_cases h6 : pyWeekday (dayOf s) = 6
    · exfalso
      apply h
      simp [basePenaltyKey, hph, h6, flatKeys]
    · by_cases h5 : pyWeekday (dayOf s) = 5
      · exfalso
        apply h
        simp [basePenaltyKey, hph, h5, flatKeys]
      · omega

/-- Claim C5: for a slice whose base penalty key is a weekday key (not one
of the four flat keys), the overtime rule applies on top of the time-of-day
rate: once the hours already worked that day reach the ordinary-hours
threshold 9, the multiplier is tier 1 (1.5) while the accrued overtime is
under 3 hours and tier 2 (2.0) beyond, and the merged rate is
ordinary x time-of-day multiplier x overtime multiplier; slices carrying a
Sunday, Saturday or public-holiday key never receive an overtime multiplier
and are always priced at their flat full-precision rate. -/
theorem claim_C5 (mSec before ord sSec m : ℚ) (ph : Bool) (hl : List ℚ) :
    (basePenaltyKey mSec ph ∉ flatKeys →
        sliceOvertimeMult (pyWeekday (dayOf mSec)) (basePenaltyKey mSec ph) before
          = if ORDINARY_HOURS_THRESHOLD ≤ before then
              (if before - ORDINARY_HOURS_THRESHOLD < 3 then OVERTIME_FIRST_3
               else OVERTIME_BEYOND_3)
            else 1)
    ∧ (basePenaltyKey mSec ph ∉ flatKeys →
        segRateFull sSec ph ord ((basePenaltyKey mSec ph, m), hl)
          = ord * penaltyMultD (basePenaltyKey mSec ph) * m)
    ∧ (basePenaltyKey mSec ph ∈ flatKeys →
        sliceOvertimeMult (pyWeekday (dayOf mSec)) (basePenaltyKey mSec ph) before = 1
        ∧ segRateFull sSec ph ord ((basePenaltyKey mSec ph, m), hl)
            = penaltyRateFullD ord (basePenaltyKey mSec ph))
    ∧ OVERTIME_FIRST_3 = 3/2 ∧ OVERTIME_BEYOND_3 = 2 ∧ ORDINARY_HOURS_THRESHOLD = 9 := by
  refine ⟨?_, ?_, ?_, rfl, rfl, rfl⟩
  · intro h
    obtain ⟨_, hw⟩ := basePenaltyKey_not_flat h
    unfold sliceOvertimeMult
    rw [if_pos ⟨hw, h⟩]
  · intro h
    unfold segRateFull
    rw [if_neg (by simpa using basePenaltyKey_ne_padding mSec ph), if_neg (by simpa using h)]
  · intro h
    constructor
    · unfold sliceOvertimeMult
      rw [if_neg (by intro hc; exact hc.2 h)]
    · unfold segRateFull
      rw [if_neg (by simpa using basePenaltyKey_ne_padding mSec ph), if_pos (by simpa using h)]

/-- Witness for claim C5: a Monday 10:00 moment carries the plain ordinary
key, and with ten hours already worked the tier-1 multiplier applies. -/
theorem claim_C5_witness :
    basePenaltyKey (startSecOf 2025 1 6 10 0) false ∉ flatKeys
    ∧ sliceOvertimeMult (pyWeekday (dayOf (startSecOf 2025 1 6 10 0)))
        (basePenaltyKey (startSecOf 2025 1 6 10 0) false) 10
        = if ORDINARY_HOURS_THRESHOLD ≤ (10 : ℚ) then
            (if (10 : ℚ) - ORDINARY_HOURS_THRESHOLD < 3 then OVERTIME_FIRST_3
             else OVERTIME_BEYOND_3)
          else 1 :=
  ⟨by with_unfolding_all decide,
   (claim_C5 (startSecOf 2025 1 6 10 0) 10 (531/20) 0 (3/2) false []).1
     (by with_unfolding_all decide)⟩

/-! ## Bucket accumulator facts (claims C2, C3, C6) -/

theorem addToBucket_keys (l : List ((PKey × ℚ) × List ℚ)) (k : PKey × ℚ) (v : ℚ) :
    (addToBucket l k v).map Prod.fst
      = if k ∈ l.map Prod.fst then l.map Prod.fst else l.map Prod.fst ++ [k] := by
  induction l with
  | nil => simp [addToBucket]
  | cons p rest ih =>
    obtain ⟨k', vs⟩ := p
    by_cases hk : k' = k
    · subst hk
      simp [addToBucket]
    · simp only [addToBucket, if_neg hk, List.map_cons, List.mem_cons]
      rw [ih]
      by_cases hmem : k ∈ rest.map Prod.fst
      · simp [hmem]
      · have hne : ¬k = k' := fun he => hk he.symm
        simp [hmem, hne]

theorem addToBucket_keys_nodup {l : List ((PKey × ℚ) × List ℚ)} {k : PKey × ℚ} {v : ℚ}
    (h : (l.map Prod.fst).Nodup) : ((addToBucket l k v).map Prod.fst).Nodup := by
  rw [addToBucket_keys]
  by_cases hmem : k ∈ l.map Prod.fst
  · simpa [hmem] using h
  · simp only [hmem, if_false]
    refine List.Nodup.append h (List.nodup_singleton k) ?_
    intro a ha hb
    rw [List.mem_singleton] at hb
    exact hmem (hb ▸ ha)

theorem addToBucket_keys_subset {l : List ((PKey × ℚ) × List ℚ)} {k : PKey × ℚ} {v : ℚ} :
    ∀ x ∈ (addToBucket l k v).map Prod.fst, x ∈ l.map Prod.fst ∨ x = k := by
  intro x hx
  rw [addToBucket_keys] at hx
  by_cases hmem : k ∈ l.map Prod.fst
  · rw [if_pos hmem] at hx
    exact Or.inl hx
  · rw [if_neg hmem] at hx
    rcases List.mem_append.mp hx with hin | hin
    · exact Or.inl hin
    · exact Or.inr (List.mem_singleton.mp hin)

theorem addToBucket_fresh {l : List ((PKey × ℚ) × List ℚ)} (k : PKey × ℚ) (v : ℚ)
    (h : k ∉ l.map Prod.fst) : (k, [v]) ∈ addToBucket l k v := by
  induction l with
  | nil => simp [addToBucket]
  | cons p rest ih =>
    obtain ⟨k', vs⟩ := p
    simp only [List.map_cons, List.mem_cons] at h
    push_neg at h
    have hne : ¬k' = k := fun he => h.1 he.symm
    simp only [addToBucket, if_neg hne]
    exact List.mem_cons_of_mem _ (ih h.2)

theorem sliceLoopAux_accum_keys (a T : ℚ) (ph : Bool) :
    ∀ (n : ℕ) (s : LoopState),
      (s.accum.map Prod.fst).Nodup →
      (∀ x ∈ s.accum.map Prod.fst, x.1 ≠ PKey.minimum_engagement_padding) →
      ((sliceLoopAux a T ph n s).accum.map Prod.fst).Nodup
        ∧ ∀ x ∈ (sliceLoopAux a T ph n s).accum.map Prod.fst,
            x.1 ≠ PKey.minimum_engagement_padding := by
  intro n
  induction n with
  | zero => exact fun s h1 h2 => ⟨h1, h2⟩
  | succ kfuel ih =>
    intro s h1 h2
    by_cases hg : s.tSec < T
    · simp only [sliceLoopAux, hg, if_true]
      apply ih
      · unfold stepOnce
        by_cases hbr : 0 < s.breakRem
        · simpa [hbr] using h1
        · simp only [hbr, if_false]
          exact addToBucket_keys_nodup h1
      · unfold stepOnce
        by_cases hbr : 0 < s.breakRem
        · simpa [hbr] using h2
        · simp only [hbr, if_false]
          intro x hx
          rcases addToBucket_keys_subset x hx with hmem | heq
          · exact h2 x hmem
          · rw [heq]
            exact basePenaltyKey_ne_padding _ _
    · simp only [sliceLoopAux, hg, if_false]
      exact ⟨h1, h2⟩

theorem shiftBuckets_keys_nodup (startSec dur brk : ℚ) (ph : Bool) :
    ((shiftBuckets startSec dur brk ph).map Prod.fst).Nodup := by
  unfold shiftBuckets
  have h := sliceLoopAux_accum_keys startSec (dur * 3600) ph (sliceFuel (dur * 3600))
    ⟨0, brk * 60, [], []⟩ (by simp) (by simp)
  by_cases hmin : paidHoursRaw dur brk < MINIMUM_ENGAGEMENT_HOURS
  · simp only [hmin, if_true]
    exact addToBucket_keys_nodup h.1
  · simp only [hmin, if_false]
    exact h.1

theorem shiftBuckets_padding_mem (startSec dur brk : ℚ) (ph : Bool)
    (h : paidHoursRaw dur brk < MINIMUM_ENGAGEMENT_HOURS) :
    ((PKey.minimum_engagement_padding, 1),
        [MINIMUM_ENGAGEMENT_HOURS - paidHoursRaw dur brk])
      ∈ shiftBuckets startSec dur brk ph := by
  unfold shiftBuckets
  simp only [h, if_true]
  apply addToBucket_fresh
  intro hmem
  exact (sliceLoopAux_accum_keys startSec (dur * 3600) ph (sliceFuel (dur * 3600))
    ⟨0, brk * 60, [], []⟩ (by simp) (by simp)).2 _ hmem rfl

/-- Claim C2, counterexample: in a weekday overtime result of the rate-table
engine, the penalty_key ordinary occurs in three different segments, so a
penalty key is not unique within a ShiftResult. -/
theorem claim_C2_counterexample :
    ¬((calculate_shift_from_rates 2025 1 6 "10:00" 13 0 false (531/20) none none none none
        none 0).segments.map Segment.penalty_key).Nodup := by
  with_unfolding_all decide

/-- Claim C2 (amended): merging happens by the pair (penalty key, overtime
multiplier), not by penalty key alone.  In calculate_shift the accumulated
bucket keys are pairwise distinct and each bucket yields exactly one
segment, so a (penalty_key, overtime multiplier) pair occurs in at most one
segment, while the same penalty_key may appear in several segments, one per
overtime tier; in calculate_shift_from_rates the segments have pairwise
distinct descriptions, while weekday overtime segments share the
penalty_key ordinary. -/
theorem claim_C2 (y mo dy h m : ℤ) (st : String) (dur brk cl base : ℚ) (ph : Bool)
    (hp : parseStart st = some (h, m)) :
    ((shiftBuckets (startSecOf y mo dy h m) dur brk ph).map Prod.fst).Nodup
    ∧ (calculate_shift y mo dy st dur brk ph cl base).map ShiftResult.segments
        = some ((shiftBuckets (startSecOf y mo dy h m) dur brk ph).map
            (mkSegment (startSecOf y mo dy h m) ph (get_ordinary_hourly_rate base cl)))
    ∧ ∀ (y2 mo2 dy2 : ℤ) (st2 : String) (dur2 brk2 orate cl2 : ℚ) (ph2 : Bool)
        (sr su pr o1 o2 : Option ℚ),
        ((calculate_shift_from_rates y2 mo2 dy2 st2 dur2 brk2 ph2 orate sr su pr o1 o2
            cl2).segments.map Segment.description).Nodup := by
  refine ⟨shiftBuckets_keys_nodup _ _ _ _, ?_, ?_⟩
  · unfold calculate_shift
    rw [hp]
    rfl
  · intro y2 mo2 dy2 st2 dur2 brk2 orate cl2 ph2 sr su pr o1 o2
    simp only [calculate_shift_from_rates]
    split_ifs <;> simp [List.map]

/-- Witness for claim C2 on a concrete zero-duration Monday shift. -/
theorem claim_C2_witness :
    ((shiftBuckets (startSecOf 2025 1 6 10 0) 0 0 false).map Prod.fst).Nodup
    ∧ (calculate_shift 2025 1 6 "10:00" 0 0 false 0 BASE_WEEKLY_RATE).map ShiftResult.segments
        = some ((shiftBuckets (startSecOf 2025 1 6 10 0) 0 0 false).map
            (mkSegment (startSecOf 2025 1 6 10 0) false
              (get_ordinary_hourly_rate BASE_WEEKLY_RATE 0)))
    ∧ ∀ (y2 mo2 dy2 : ℤ) (st2 : String) (dur2 brk2 orate cl2 : ℚ) (ph2 : Bool)
        (sr su pr o1 o2 : Option ℚ),
        ((calculate_shift_from_rates y2 mo2 dy2 st2 dur2 brk2 ph2 orate sr su pr o1 o2
            cl2).segments.map Segment.description).Nodup :=
  claim_C2 2025 1 6 10 0 "10:00" 0 0 0 BASE_WEEKLY_RATE false (by with_unfolding_all decide)

/-- Claim C3: every output segment of calculate_shift prices its bucket as
round2(bucket hours x price), where the price is the full-precision rate
exactly for the Saturday-keyed buckets and the rounded-to-cents rate (the
displayed segment rate) for every other bucket, including Sunday, public
holiday and minimum-engagement padding; and the segments of a result are
exactly the merged buckets. -/
theorem claim_C3 (y mo dy h m : ℤ) (st : String) (dur brk cl base : ℚ) (ph : Bool)
    (hp : parseStart st = some (h, m)) :
    (∀ (sSec ord : ℚ) (ph2 : Bool) (b : (PKey × ℚ) × List ℚ),
        (mkSegment sSec ph2 ord b).cost
          = round_half_up (b.2.sum *
              (if b.1.1 = PKey.saturday_ordinary ∨ b.1.1 = PKey.saturday
               then segRateFull sSec ph2 ord b
               else round_half_up (segRateFull sSec ph2 ord b) 2)) 2
        ∧ (mkSegment sSec ph2 ord b).rate = round_half_up (segRateFull sSec ph2 ord b) 2)
    ∧ (calculate_shift y mo dy st dur brk ph cl base).map ShiftResult.segments
        = some ((shiftBuckets (startSecOf y mo dy h m) dur brk ph).map
            (mkSegment (startSecOf y mo dy h m) ph (get_ordinary_hourly_rate base cl))) := by
  constructor
  · intro sSec ord ph2 b
    constructor
    · by_cases hsat : b.1.1 = PKey.saturday_ordinary ∨ b.1.1 = PKey.saturday
      · have hnp : ¬b.1.1 = PKey.minimum_engagement_padding := by
          rcases hsat with h1 | h1 <;> simp [h1]
        simp [mkSegment, hsat, hnp]
      · simp [mkSegment, hsat]
    · rfl
  · unfold calculate_shift
    rw [hp]
    rfl

/-- Witness for claim C3: the Saturday bucket of five hours is costed at the
full-precision rate, and the segment list of a concrete Saturday shift is
the merged buckets. -/
theorem claim_C3_witness :
    ((mkSegment 0 false (531/20) ((PKey.saturday_ordinary, 1), [5])).cost
        = round_half_up (([5] : List ℚ).sum *
            (if PKey.saturday_ordinary = PKey.saturday_ordinary
                ∨ PKey.saturday_ordinary = PKey.saturday
             then segRateFull 0 false (531/20) ((PKey.saturday_ordinary, 1), [5])
             else round_half_up (segRateFull 0 false (531/20) ((PKey.saturday_ordinary, 1), [5]))
               2)) 2
      ∧ (mkSegment 0 false (531/20) ((PKey.saturday_ordinary, 1), [5])).rate
          = round_half_up (segRateFull 0 false (531/20) ((PKey.saturday_ordinary, 1), [5])) 2)
    ∧ (calculate_shift 2025 1 11 "09:00" 5 0 false 0 BASE_WEEKLY_RATE).map ShiftResult.segments
        = some ((shiftBuckets (startSecOf 2025 1 11 9 0) 5 0 false).map
            (mkSegment (startSecOf 2025 1 11 9 0) false
              (get_ordinary_hourly_rate BASE_WEEKLY_RATE 0))) :=
  ⟨(claim_C3 2025 1 11 9 0 "09:00" 5 0 0 BASE_WEEKLY_RATE false
      (by with_unfolding_all decide)).1 0 (531/20) false ((PKey.saturday_ordinary, 1), [5]),
   (claim_C3 2025 1 11 9 0 "09:00" 5 0 0 BASE_WEEKLY_RATE false
      (by with_unfolding_all decide)).2⟩

/-- Claim C6, counterexample: the returned paid_hours field is Python
round(x, 2) of max(raw, 3), so for a duration of 3.005 hours the reported
paid hours are 3.0, not max(raw_worked_hours, minimum_engagement_hours)
= 3.005. -/
theorem claim_C6_counterexample :
    ¬((calculate_shift_from_rates 2025 1 6 "10:00" (601/200) 0 false (531/20) none none none
          none none 0).paid_hours
        = max (max ((601 : ℚ)/200 - 0/60) 0) MINIMUM_ENGAGEMENT_HOURS) := by
  with_unfolding_all decide

/-- Claim C6 (amended): in both engines a shift with raw worked hours below
3 is paid exactly 3.0 hours and carries the warning naming the actual
worked hours, and in calculate_shift a padding bucket with key
minimum_engagement_padding of exactly 3 - raw hours is added, priced at the
rounded rate of the classification of the shift start moment; in general the
returned paid_hours equals max(raw_worked_hours, minimum_engagement_hours)
rounded half-to-even to two decimals (hence equal to the plain maximum
whenever the raw hours have at most two decimals). -/
theorem claim_C6 (y mo dy h m : ℤ) (dur brk cl base : ℚ) (ph : Bool) :
    (calcShiftCore y mo dy h m dur brk ph cl base).paid_hours
        = pyRound2 (max (paidHoursRaw dur brk) MINIMUM_ENGAGEMENT_HOURS)
    ∧ (paidHoursRaw dur brk < MINIMUM_ENGAGEMENT_HOURS →
        (calcShiftCore y mo dy h m dur brk ph cl base).paid_hours = 3
        ∧ (calcShiftCore y mo dy h m dur brk ph cl base).warnings
            = [minEngagementWarning (paidHoursRaw dur brk)]
        ∧ ((PKey.minimum_engagement_padding, 1),
              [MINIMUM_ENGAGEMENT_HOURS - paidHoursRaw dur brk])
            ∈ shiftBuckets (startSecOf y mo dy h m) dur brk ph
        ∧ ∀ hl : List ℚ,
            (mkSegment (startSecOf y mo dy h m) ph (get_ordinary_hourly_rate base cl)
                ((PKey.minimum_engagement_padding, 1), hl)).rate
              = round_half_up
                  (penaltyRateRoundedD (get_ordinary_hourly_rate base cl)
                    (basePenaltyKey (startSecOf y mo dy h m) ph)) 2)
    ∧ ∀ (y2 mo2 dy2 : ℤ) (st2 : String) (dur2 brk2 orate cl2 : ℚ) (ph2 : Bool)
        (sr su pr o1 o2 : Option ℚ),
        (calculate_shift_from_rates y2 mo2 dy2 st2 dur2 brk2 ph2 orate sr su pr o1 o2
            cl2).paid_hours
          = pyRound2 (max (max (dur2 - brk2 / 60) 0) MINIMUM_ENGAGEMENT_HOURS)
        ∧ (max (dur2 - brk2 / 60) 0 < MINIMUM_ENGAGEMENT_HOURS →
            (calculate_shift_from_rates y2 mo2 dy2 st2 dur2 brk2 ph2 orate sr su pr o1 o2
                cl2).warnings
              = [minEngagementWarning (max (dur2 - brk2 / 60) 0)]) := by
  refine ⟨?_, fun hraw => ⟨?_, ?_, ?_, ?_⟩, ?_⟩
  · show pyRound2 (if paidHoursRaw dur brk < MINIMUM_ENGAGEMENT_HOURS then
        MINIMUM_ENGAGEMENT_HOURS else paidHoursRaw dur brk) = _
    rcases lt_or_le (paidHoursRaw dur brk) MINIMUM_ENGAGEMENT_HOURS with hlt | hge
    · rw [if_pos hlt, max_eq_right hlt.le]
    · rw [if_neg (not_lt.mpr hge), max_eq_left hge]
  · show pyRound2 (if paidHoursRaw dur brk < MINIMUM_ENGAGEMENT_HOURS then
        MINIMUM_ENGAGEMENT_HOURS else paidHoursRaw dur brk) = 3
    rw [if_pos hraw]
    with_unfolding_all decide
  · show (if paidHoursRaw dur brk < MINIMUM_ENGAGEMENT_HOURS then
        [minEngagementWarning (paidHoursRaw dur brk)] else []) = _
    rw [if_pos hraw]
  · exact shiftBuckets_padding_mem _ _ _ _ hraw
  · intro hl
    rfl
  · intro y2 mo2 dy2 st2 dur2 brk2 orate cl2 ph2 sr su pr o1 o2
    constructor
    · show pyRound2 (if max (dur2 - brk2 / 60) 0 < MINIMUM_ENGAGEMENT_HOURS then
          MINIMUM_ENGAGEMENT_HOURS else max (dur2 - brk2 / 60) 0) = _
      rcases lt_or_le (max (dur2 - brk2 / 60) 0) MINIMUM_ENGAGEMENT_HOURS with hlt | hge
      · rw [if_pos hlt, max_eq_right hlt.le]
      · rw [if_neg (not_lt.mpr hge), max_eq_left hge]
    · intro hraw2
      show (if max (dur2 - brk2 / 60) 0 < MINIMUM_ENGAGEMENT_HOURS then
          [minEngagementWarning (max (dur2 - brk2 / 60) 0)] else []) = _
      rw [if_pos hraw2]

/-- Witness for claim C6 on the Sunday two-hour shift padded to three
hours, in both engines. -/
theorem claim_C6_witness :
    paidHoursRaw 2 0 < MINIMUM_ENGAGEMENT_HOURS
    ∧ (calcShiftCore 2025 1 12 10 0 2 0 false 0 BASE_WEEKLY_RATE).paid_hours = 3
    ∧ (calcShiftCore 2025 1 12 10 0 2 0 false 0 BASE_WEEKLY_RATE).warnings
        = [minEngagementWarning (paidHoursRaw 2 0)]
    ∧ ((PKey.minimum_engagement_padding, 1), [MINIMUM_ENGAGEMENT_HOURS - paidHoursRaw 2 0])
        ∈ shiftBuckets (startSecOf 2025 1 12 10 0) 2 0 false
    ∧ (calculate_shift_from_rates 2025 1 12 "10:00" 2 0 false (531/20) none none none none
          none 0).warnings
        = [minEngagementWarning (max ((2 : ℚ) - 0 / 60) 0)] := by
  have hc := claim_C6 2025 1 12 10 0 2 0 0 BASE_WEEKLY_RATE false
  have hraw : paidHoursRaw 2 0 < MINIMUM_ENGAGEMENT_HOURS := by with_unfolding_all decide
  have hb := hc.2.1 hraw
  exact ⟨hraw, hb.1, hb.2.1, hb.2.2.1,
    (hc.2.2 2025 1 12 "10:00" 2 0 (531/20) 0 false none none none none none).2
      (by with_unfolding_all decide)⟩
